import Mathlib

/-!
Shallow embedding of the `datastore-emulator-go` repository: a supervisor
for the GCP Datastore emulator process.  Two source variants are modelled:

* `EnvInit`   — `src/emulator.go`: launches `gcloud beta emulators
  datastore start` and parses the output of the `env-init` subcommand
  for the connection data.
* `FixedHost` — `src/unnamed/part_000`: launches with a fixed
  `--host-port`/`--project` pair and publishes those values directly.

External effects are modelled explicitly:

* the process environment is a record of the three variables the code
  touches; Go `os.Getenv` returns `""` for an unset variable, so `""`
  doubles as "unset";
* the network is an oracle `net : Nat → String → Method → Bool` giving
  the outcome (`true` = HTTP 200, `false` = any transport error,
  non-200 status or per-request timeout) of the n-th request issued by
  the process, together with a duration oracle `dur` (milliseconds),
  which the theorems bound by the per-request timeout `pollingRate`;
* spawning the emulator child process (`cmd.Start()`) and running the
  `env-init` subcommand (`cmd.Run()`) are the oracles `spawnOK` and
  `envInitRun` (the latter returns the stdout lines, `none` meaning the
  command failed); only the long-running emulator process itself is
  recorded as a `spawn` event;
* every observable action is appended to an event trace.

The `confirmStartup` polling loop is modelled in discrete milliseconds:
the ticker delivers a tick at `max now (lastTick + pollingRate)`, and an
expired overall deadline takes priority over a simultaneously ready tick
(the semantics described by the state machine of the design: once the
overall timeout elapses before a success the loop transitions to the
timed-out state).  A Go runtime panic (index out of range while parsing
the `env-init` output) is the distinguished outcome `panicked`.
-/

namespace DatastoreEmulatorGo

/-- HTTP method of a control request. -/
inductive Method where
  | get
  | post
deriving DecidableEq

/-- Observable actions of the supervisor, recorded in order. -/
inductive Event where
  | spawn
  | request (url : String) (m : Method) (ok : Bool)
  | setenv (name val : String)
  | unsetenv (name : String)
deriving DecidableEq

/-- Error values returned by the operations. -/
inductive Err where
  | spawnFailed
  | runFailed
  | statusErr
  | deadlineExceeded
  | fuelOut
deriving DecidableEq

/-- Result of a Go function returning `error`, extended with the
distinguished outcome of a runtime panic. -/
inductive GoResult where
  | ok
  | err (e : Err)
  | panicked
deriving DecidableEq

/-- The three process environment variables the code reads or writes.
`""` means unset (Go `os.Getenv` semantics). -/
structure Env where
  DATASTORE_HOST : String
  DATASTORE_PROJECT_ID : String
  DATASTORE_EMULATOR_HOST : String
deriving DecidableEq

/-- The `Emulator` struct of the source. -/
structure Emulator where
  Host : String
  ProjectID : String
  stopOnClose : Bool
deriving DecidableEq

/-- Mutable process-wide state threaded through the model: the
environment, the number of network requests issued so far (used to index
the network oracle) and the event trace. -/
structure Sys where
  env : Env
  reqCount : Nat
  trace : List Event
deriving DecidableEq

/-- The external world: network oracle, request durations, spawn success
and the outcome of the `env-init` subcommand. -/
structure World where
  net : Nat → String → Method → Bool
  dur : Nat → Nat
  spawnOK : Bool
  envInitRun : Option (List String)

/-- The zero value `&Emulator{}` allocated by `New`. -/
def emptyEmulator : Emulator :=
  { Host := "", ProjectID := "", stopOnClose := false }

/-- Initial system state: a given environment, no requests issued, empty
trace. -/
def Sys.start (env : Env) : Sys :=
  { env := env, reqCount := 0, trace := [] }

/-- Package-level constant `pollingRate = 200 * time.Millisecond`, in
milliseconds; it is also the per-request timeout of `request`. -/
def pollingRate : Nat := 200

/-- Package-level constant `resetEndpoint`. -/
def resetEndpoint : String := "/reset"

/-- Package-level constant `shutdownEndpoint`. -/
def shutdownEndpoint : String := "/shutdown"

/-- Package-level constant `healthcheckEndpoint` (the empty path). -/
def healthcheckEndpoint : String := ""

/-- Update one of the three modelled environment variables by name
(`os.Setenv`; `os.Unsetenv` is `envSet env name ""`). -/
def envSet (env : Env) (name val : String) : Env :=
  if name = "DATASTORE_HOST" then { env with DATASTORE_HOST := val }
  else if name = "DATASTORE_PROJECT_ID" then { env with DATASTORE_PROJECT_ID := val }
  else if name = "DATASTORE_EMULATOR_HOST" then { env with DATASTORE_EMULATOR_HOST := val }
  else env

/-- Model of `os.Setenv`. -/
def Sys.setenv (s : Sys) (name val : String) : Sys :=
  { s with env := envSet s.env name val, trace := s.trace ++ [Event.setenv name val] }

/-- Model of `os.Unsetenv`. -/
def Sys.unsetenv (s : Sys) (name : String) : Sys :=
  { s with env := envSet s.env name "", trace := s.trace ++ [Event.unsetenv name] }

/-- Model of `(e *Emulator) request(path, method)`: issues one HTTP
request against `e.Host + path` with a per-request timeout of
`pollingRate`; the boolean is `true` exactly when the response was a 200
status (the oracle decides). -/
def request (w : World) (s : Sys) (e : Emulator) (path : String) (m : Method) :
    Bool × Sys :=
  (w.net s.reqCount (e.Host ++ path) m,
    { s with reqCount := s.reqCount + 1,
             trace := s.trace ++ [Event.request (e.Host ++ path) m (w.net s.reqCount (e.Host ++ path) m)] })

/-- Model of `(e *Emulator) isHealthy()`: a single GET against
`e.Host + healthcheckEndpoint`. -/
def isHealthy (w : World) (s : Sys) (e : Emulator) : Bool × Sys :=
  request w s e healthcheckEndpoint Method.get

/-- Model of `(e *Emulator) Close()` (identical in both variants): a
no-op unless `stopOnClose`; otherwise unset the two published variables
unconditionally, then issue the shutdown POST only if a final health
check succeeds. -/
def Close (w : World) (s : Sys) (e : Emulator) : GoResult × Emulator × Sys :=
  if !e.stopOnClose then (.ok, e, s)
  else
    match isHealthy w ((s.unsetenv "DATASTORE_EMULATOR_HOST").unsetenv "DATASTORE_PROJECT_ID") e with
    | (true, s2) =>
      match request w s2 e shutdownEndpoint Method.post with
      | (true, s3) => (.ok, e, s3)
      | (false, s3) => (.err .statusErr, e, s3)
    | (false, s2) => (.ok, e, s2)

/-- Model of `(e *Emulator) Reset()`: a single POST to the reset
endpoint, surfacing the request error. -/
def Reset (w : World) (s : Sys) (e : Emulator) : GoResult × Emulator × Sys :=
  match request w s e resetEndpoint Method.post with
  | (true, s2) => (.ok, e, s2)
  | (false, s2) => (.err .statusErr, e, s2)

/-- Splitting a character list at every occurrence of `c`, keeping
empty groups: the semantics of Go `strings.Split` with a single-rune
separator (`strings.Split("", sep) = [""]`, no collapsing). -/
def splitOnChar (c : Char) : List Char → List (List Char)
  | [] => [[]]
  | d :: ds =>
    if d = c then [] :: splitOnChar c ds
    else
      match splitOnChar c ds with
      | [] => [[d]]
      | g :: gs => (d :: g) :: gs

/-- Model of Go `strings.Split(s, sep)` for the single-rune separators
used by the source (`" "` and `"="`). -/
def goSplit (c : Char) (s : String) : List String :=
  (splitOnChar c s.data).map String.mk

/-- Outcome of the startup-confirmation loop, carrying the time (ms
since the loop started) at which the loop returned. -/
inductive ConfirmOutcome where
  | confirmed (t : Nat)
  | timedOut (t : Nat)
  | fuelOut
deriving DecidableEq

/-- Model of the `confirmStartup` select loop, in discrete milliseconds.
`T` is the overall timeout, `Δ` the polling interval, `lastTick` the
time of the previously delivered tick, `now` the current time.  On each
iteration: if the deadline has elapsed, return the context error;
otherwise the next tick is delivered at `max now (lastTick + Δ)`; if the
deadline elapses no later than that tick, the context error wins;
otherwise one health request is issued (taking `w.dur` milliseconds, an
amount the theorems bound by the per-request timeout) and a success
returns at the completion of that request.  `fuel` bounds the number of
iterations; `confirmFuel` below always suffices. -/
def confirmLoop (T Δ : Nat) (w : World) (e : Emulator) :
    Nat → Nat → Nat → Sys → ConfirmOutcome × Sys
  | 0, _, now, s =>
    if T ≤ now then (.timedOut now, s) else (.fuelOut, s)
  | fuel + 1, lastTick, now, s =>
    if T ≤ now then (.timedOut now, s)
    else if T ≤ max now (lastTick + Δ) then (.timedOut T, s)
    else
      match request w s e healthcheckEndpoint Method.get with
      | (true, s2) => (.confirmed (max now (lastTick + Δ) + w.dur s.reqCount), s2)
      | (false, s2) =>
        confirmLoop T Δ w e fuel (max now (lastTick + Δ))
          (max now (lastTick + Δ) + w.dur s.reqCount) s2

/-- Iteration bound that always suffices for `confirmLoop`. -/
def confirmFuel (T Δ : Nat) : Nat := T / Δ + 1

namespace EnvInit

/-- Package-level constant `timeout = 5 * time.Second` of
`src/emulator.go`, in milliseconds. -/
def timeout : Nat := 5000

/-- Model of `instanceIsPresent` of `src/emulator.go`: both variables
must be non-empty, then `e.isHealthy()` is consulted (a GET against
`e.Host + healthcheckEndpoint`, not against the discovered host). -/
def instanceIsPresent (w : World) (s : Sys) (e : Emulator) :
    Bool × Emulator × Sys :=
  if s.env.DATASTORE_HOST = "" then (false, e, s)
  else if s.env.DATASTORE_PROJECT_ID = "" then (false, e, s)
  else
    match isHealthy w s e with
    | (false, s2) => (false, e, s2)
    | (true, s2) =>
      (true, { e with Host := s.env.DATASTORE_HOST,
                      ProjectID := s.env.DATASTORE_PROJECT_ID }, s2)

/-- One line of `initEnv`'s scanner loop:
`strings.Split(strings.Split(line, " ")[1], "=")` followed by the
indexing `e[0]`, `e[1]`.  `none` models a Go index-out-of-range panic
(no second space-delimited token, or no `=` in it). -/
def parseLine (line : String) : Option (String × String) :=
  match (goSplit ' ' line)[1]? with
  | none => none
  | some second =>
    match (goSplit '=' second)[1]? with
    | none => none
    | some v => some ((goSplit '=' second).headD "", v)

/-- The scanner loop of `initEnv`, building the `env` map (Go map
lookup of a missing key yields `""`); `none` models a panic on some
line. -/
def parseLines : List String → (String → String) → Option (String → String)
  | [], envMap => some envMap
  | l :: ls, envMap =>
    match parseLine l with
    | none => none
    | some kv => parseLines ls (fun x => if x = kv.1 then kv.2 else envMap x)

/-- Model of `initEnv` of `src/emulator.go`: run the `env-init`
subcommand, parse every stdout line, assign `e.Host`/`e.ProjectID` from
the map and publish `DATASTORE_EMULATOR_HOST`/`DATASTORE_PROJECT_ID`. -/
def initEnv (w : World) (s : Sys) (e : Emulator) : GoResult × Emulator × Sys :=
  match w.envInitRun with
  | none => (.err .runFailed, e, s)
  | some lines =>
    match parseLines lines (fun _ => "") with
    | none => (.panicked, e, s)
    | some envMap =>
      (.ok,
        { e with Host := envMap "DATASTORE_HOST",
                 ProjectID := envMap "DATASTORE_PROJECT_ID" },
        (s.setenv "DATASTORE_EMULATOR_HOST" (envMap "DATASTORE_EMULATOR_HOST")).setenv
          "DATASTORE_PROJECT_ID" (envMap "DATASTORE_PROJECT_ID"))

/-- Model of `confirmStartup` of `src/emulator.go`. -/
def confirmStartup (w : World) (s : Sys) (e : Emulator) : ConfirmOutcome × Sys :=
  confirmLoop timeout pollingRate w e (confirmFuel timeout pollingRate) 0 0 s

/-- Model of `Start` of `src/emulator.go`: adopt a present instance, or
set `stopOnClose`, spawn the emulator, run `initEnv`, and confirm
startup, calling `Close` for cleanup on the error paths that follow the
spawn. -/
def Start (w : World) (s : Sys) (e : Emulator) : GoResult × Emulator × Sys :=
  match instanceIsPresent w s e with
  | (true, e2, s2) => (.ok, e2, s2)
  | (false, _, s0) =>
    let e1 : Emulator := { e with stopOnClose := true }
    if !w.spawnOK then (.err .spawnFailed, e1, s0)
    else
      let s1 : Sys := { s0 with trace := s0.trace ++ [Event.spawn] }
      match initEnv w s1 e1 with
      | (.panicked, e2, s2) => (.panicked, e2, s2)
      | (.err er, e2, s2) =>
        match Close w s2 e2 with
        | (_, _, s3) => (.err er, e2, s3)
      | (.ok, e2, s2) =>
        match confirmStartup w s2 e2 with
        | (.confirmed _, s3) => (.ok, e2, s3)
        | (.timedOut _, s3) =>
          match Close w s3 e2 with
          | (_, _, s4) => (.err .deadlineExceeded, e2, s4)
        | (.fuelOut, s3) => (.err .fuelOut, e2, s3)

/-- Model of `New` of `src/emulator.go`: `Start` on the zero value. -/
def New (w : World) (s : Sys) : GoResult × Emulator × Sys :=
  Start w s emptyEmulator

end EnvInit

namespace FixedHost

/-- Package-level constant `timeout = 30 * time.Second` of
`src/unnamed/part_000`, in milliseconds. -/
def timeout : Nat := 30000

/-- Package-level constant `defaultProject` of `src/unnamed/part_000`. -/
def defaultProject : String := "test"

/-- Package-level constant `defaultHost` of `src/unnamed/part_000`. -/
def defaultHost : String := "localhost:8088"

/-- Model of `instanceIsPresent` of `src/unnamed/part_000`: both
variables must be non-empty, then `e.request(host, GET)` is issued —
the URL is `e.Host + host`, which for a fresh handle is exactly the
discovered host. -/
def instanceIsPresent (w : World) (s : Sys) (e : Emulator) :
    Bool × Emulator × Sys :=
  if s.env.DATASTORE_HOST = "" then (false, e, s)
  else if s.env.DATASTORE_PROJECT_ID = "" then (false, e, s)
  else
    match request w s e s.env.DATASTORE_HOST Method.get with
    | (false, s2) => (false, e, s2)
    | (true, s2) =>
      (true, { e with Host := s.env.DATASTORE_HOST,
                      ProjectID := s.env.DATASTORE_PROJECT_ID }, s2)

/-- Model of `confirmStartup` of `src/unnamed/part_000`. -/
def confirmStartup (w : World) (s : Sys) (e : Emulator) : ConfirmOutcome × Sys :=
  confirmLoop timeout pollingRate w e (confirmFuel timeout pollingRate) 0 0 s

/-- Model of `Start` of `src/unnamed/part_000`: adopt a present
instance, or set `stopOnClose`, spawn with the fixed flags, set the
handle fields from the constants, confirm startup (cleaning up via
`Close` on timeout) and only then publish the environment variables. -/
def Start (w : World) (s : Sys) (e : Emulator) : GoResult × Emulator × Sys :=
  match instanceIsPresent w s e with
  | (true, e2, s2) => (.ok, e2, s2)
  | (false, _, s0) =>
    let e1 : Emulator := { e with stopOnClose := true }
    if !w.spawnOK then (.err .spawnFailed, e1, s0)
    else
      let s1 : Sys := { s0 with trace := s0.trace ++ [Event.spawn] }
      let e2 : Emulator := { e1 with Host := "http://" ++ defaultHost,
                                     ProjectID := defaultProject }
      match confirmStartup w s1 e2 with
      | (.confirmed _, s2) =>
        (.ok, e2,
          (s2.setenv "DATASTORE_EMULATOR_HOST" defaultHost).setenv
            "DATASTORE_PROJECT_ID" defaultProject)
      | (.timedOut _, s2) =>
        match Close w s2 e2 with
        | (_, _, s3) => (.err .deadlineExceeded, e2, s3)
      | (.fuelOut, s2) => (.err .fuelOut, e2, s2)

/-- Model of `New` of `src/unnamed/part_000`: `Start` on the zero
value. -/
def New (w : World) (s : Sys) : GoResult × Emulator × Sys :=
  Start w s emptyEmulator

end FixedHost

/-! Concrete worlds and environments used by counterexamples and
witnesses. -/

/-- A well-formed `env-init` output. -/
def goodLines : List String :=
  ["export DATASTORE_HOST=h", "export DATASTORE_PROJECT_ID=p",
   "export DATASTORE_EMULATOR_HOST=eh"]

/-- Every request succeeds; spawning works. -/
def wTrue : World :=
  { net := fun _ _ _ => true, dur := fun _ => 0, spawnOK := true,
    envInitRun := some goodLines }

/-- Every request fails; spawning works. -/
def wFalse : World :=
  { net := fun _ _ _ => false, dur := fun _ => 0, spawnOK := true,
    envInitRun := some goodLines }

/-- Only requests to the empty address succeed; spawning fails. -/
def wEmptyProbe : World :=
  { net := fun _ u _ => u == "", dur := fun _ => 0, spawnOK := false,
    envInitRun := none }

/-- Every request fails and spawning fails. -/
def wNoSpawn : World :=
  { net := fun _ _ _ => false, dur := fun _ => 0, spawnOK := false,
    envInitRun := none }

/-- Health GETs fail during confirmation (the first 24 requests) and
succeed afterwards; POSTs fail; spawning works. -/
def wLateHealth : World :=
  { net := fun n _ m => match m with | .get => decide (24 ≤ n) | .post => false,
    dur := fun _ => 0, spawnOK := true, envInitRun := some goodLines }

/-- An `env-init` output whose single line has no space. -/
def wBadLine : World :=
  { net := fun _ _ _ => false, dur := fun _ => 0, spawnOK := true,
    envInitRun := some ["foo"] }

/-- A discovered environment: host `h`, project `p`. -/
def envHP : Env := { DATASTORE_HOST := "h", DATASTORE_PROJECT_ID := "p", DATASTORE_EMULATOR_HOST := "" }

/-- The empty environment. -/
def envEmpty : Env := { DATASTORE_HOST := "", DATASTORE_PROJECT_ID := "", DATASTORE_EMULATOR_HOST := "" }

/-! Preservation lemmas for the primitive operations. -/

theorem request_env (w : World) (s : Sys) (e : Emulator) (p : String) (m : Method) :
    (request w s e p m).2.env = s.env := rfl

theorem request_reqCount (w : World) (s : Sys) (e : Emulator) (p : String) (m : Method) :
    (request w s e p m).2.reqCount = s.reqCount + 1 := rfl

theorem request_trace (w : World) (s : Sys) (e : Emulator) (p : String) (m : Method) :
    (request w s e p m).2.trace
      = s.trace ++ [Event.request (e.Host ++ p) m (w.net s.reqCount (e.Host ++ p) m)] := rfl

theorem envSet_emulator_host (env : Env) (v : String) :
    envSet env "DATASTORE_EMULATOR_HOST" v = { env with DATASTORE_EMULATOR_HOST := v } := by
  simp [envSet]

theorem envSet_project_id (env : Env) (v : String) :
    envSet env "DATASTORE_PROJECT_ID" v = { env with DATASTORE_PROJECT_ID := v } := by
  simp [envSet]

theorem confirmLoop_env (T Δ : Nat) (w : World) (e : Emulator) :
    ∀ fuel lastTick now s, (confirmLoop T Δ w e fuel lastTick now s).2.env = s.env := by
  intro fuel
  induction fuel with
  | zero =>
    intro lastTick now s
    simp only [confirmLoop]
    split <;> rfl
  | succ f ih =>
    intro lastTick now s
    simp only [confirmLoop]
    split
    · rfl
    · split
      · rfl
      · rcases hr : request w s e healthcheckEndpoint Method.get with ⟨b, s2⟩
        have henv : s2.env = s.env := by
          have := congrArg (fun p => p.2.env) hr
          simpa [request_env] using this.symm
        cases b
        · simpa [hr] using (ih (max now (lastTick + Δ))
            (max now (lastTick + Δ) + w.dur s.reqCount) s2).trans henv
        · simpa [hr] using henv

theorem confirmLoop_trace (T Δ : Nat) (w : World) (e : Emulator) :
    ∀ fuel lastTick now s, ∃ l,
      (confirmLoop T Δ w e fuel lastTick now s).2.trace = s.trace ++ l ∧
      ∀ ev ∈ l, ∃ u b, ev = Event.request u Method.get b := by
  intro fuel
  induction fuel with
  | zero =>
    intro lastTick now s
    refine ⟨[], ?_, by simp⟩
    simp only [confirmLoop]
    split <;> simp
  | succ f ih =>
    intro lastTick now s
    simp only [confirmLoop]
    split
    · exact ⟨[], by simp, by simp⟩
    · split
      · exact ⟨[], by simp, by simp⟩
      · rcases hr : request w s e healthcheckEndpoint Method.get with ⟨b, s2⟩
        have htr : s2.trace = s.trace
            ++ [Event.request (e.Host ++ healthcheckEndpoint) Method.get
                  (w.net s.reqCount (e.Host ++ healthcheckEndpoint) Method.get)] := by
          have := congrArg (fun p => p.2.trace) hr
          simpa [request_trace] using this.symm
        cases b
        · obtain ⟨l, hl, hall⟩ := ih (max now (lastTick + Δ))
            (max now (lastTick + Δ) + w.dur s.reqCount) s2
          refine ⟨Event.request (e.Host ++ healthcheckEndpoint) Method.get
              (w.net s.reqCount (e.Host ++ healthcheckEndpoint) Method.get) :: l, ?_, ?_⟩
          · simp only [hr]
            rw [hl, htr]
            simp
          · intro ev hev
            rcases List.mem_cons.mp hev with h | h
            · exact ⟨_, _, h⟩
            · exact hall ev h
        · refine ⟨[Event.request (e.Host ++ healthcheckEndpoint) Method.get
              (w.net s.reqCount (e.Host ++ healthcheckEndpoint) Method.get)], ?_, ?_⟩
          · simpa [hr] using htr
          · intro ev hev
            simp at hev
            exact ⟨_, _, hev⟩

theorem Close_emulator (w : World) (s : Sys) (e : Emulator) :
    (Close w s e).2.1 = e := by
  simp only [Close]
  split
  · rfl
  · split
    · split <;> rfl
    · rfl

theorem Close_not_owned (w : World) (s : Sys) (e : Emulator)
    (he : e.stopOnClose = false) : Close w s e = (.ok, e, s) := by
  simp [Close, he]

theorem Close_owned_env (w : World) (s : Sys) (e : Emulator)
    (he : e.stopOnClose = true) :
    (Close w s e).2.2.env
      = { s.env with DATASTORE_EMULATOR_HOST := "", DATASTORE_PROJECT_ID := "" } := by
  simp only [Close, he, Bool.not_true, Bool.false_eq_true, if_false]
  have henv : ((s.unsetenv "DATASTORE_EMULATOR_HOST").unsetenv "DATASTORE_PROJECT_ID").env
      = { s.env with DATASTORE_EMULATOR_HOST := "", DATASTORE_PROJECT_ID := "" } := by
    simp [Sys.unsetenv, envSet_emulator_host, envSet_project_id]
  rcases hr : isHealthy w ((s.unsetenv "DATASTORE_EMULATOR_HOST").unsetenv "DATASTORE_PROJECT_ID") e with ⟨b, s2⟩
  have hs2 : s2.env = { s.env with DATASTORE_EMULATOR_HOST := "", DATASTORE_PROJECT_ID := "" } := by
    have := congrArg (fun p => p.2.env) hr
    simp only [isHealthy, request_env] at this
    rw [← this, henv]
  cases b
  · simpa using hs2
  · rcases hq : request w s2 e shutdownEndpoint Method.post with ⟨b2, s3⟩
    have hs3 : s3.env = s2.env := by
      have := congrArg (fun p => p.2.env) hq
      simpa [request_env] using this.symm
    cases b2 <;> simpa [hq, hs3] using hs2

theorem Close_owned_trace (w : World) (s : Sys) (e : Emulator)
    (he : e.stopOnClose = true) :
    ∃ l, (Close w s e).2.2.trace
        = s.trace ++ Event.unsetenv "DATASTORE_EMULATOR_HOST"
            :: Event.unsetenv "DATASTORE_PROJECT_ID" :: l ∧
      ∀ ev ∈ l, ∃ u m b, ev = Event.request u m b := by
  simp only [Close, he, Bool.not_true, Bool.false_eq_true, if_false]
  have htr : ((s.unsetenv "DATASTORE_EMULATOR_HOST").unsetenv "DATASTORE_PROJECT_ID").trace
      = s.trace ++ [Event.unsetenv "DATASTORE_EMULATOR_HOST", Event.unsetenv "DATASTORE_PROJECT_ID"] := by
    simp [Sys.unsetenv]
  rcases hr : isHealthy w ((s.unsetenv "DATASTORE_EMULATOR_HOST").unsetenv "DATASTORE_PROJECT_ID") e with ⟨b, s2⟩
  have hs2 : ∃ u m bb, s2.trace = s.trace
      ++ [Event.unsetenv "DATASTORE_EMULATOR_HOST", Event.unsetenv "DATASTORE_PROJECT_ID",
          Event.request u m bb] := by
    have := congrArg (fun p => p.2.trace) hr
    simp only [isHealthy, request_trace, htr] at this
    exact ⟨_, _, _, by simpa using this.symm⟩
  obtain ⟨u1, m1, b1, hs2⟩ := hs2
  cases b
  · refine ⟨[Event.request u1 m1 b1], by simpa using hs2, ?_⟩
    intro ev hev
    rw [List.mem_singleton] at hev
    exact ⟨_, _, _, hev⟩
  · rcases hq : request w s2 e shutdownEndpoint Method.post with ⟨b2, s3⟩
    have hs3 : ∃ u m bb, s3.trace = s2.trace ++ [Event.request u m bb] := by
      have := congrArg (fun p => p.2.trace) hq
      simp only [request_trace] at this
      exact ⟨_, _, _, this.symm⟩
    obtain ⟨u2, m2, b2x, hs3⟩ := hs3
    refine ⟨[Event.request u1 m1 b1, Event.request u2 m2 b2x], ?_, ?_⟩
    · cases b2 <;> simp [hq] <;> rw [hs3, hs2] <;> simp
    · intro ev hev
      simp at hev
      rcases hev with h | h <;> exact ⟨_, _, _, h⟩

theorem envInit_iip_env (w : World) (s : Sys) (e : Emulator) :
    (EnvInit.instanceIsPresent w s e).2.2.env = s.env := by
  simp only [EnvInit.instanceIsPresent]
  split
  · rfl
  · split
    · rfl
    · rcases hr : isHealthy w s e with ⟨b, s2⟩
      have : s2.env = s.env := by
        have := congrArg (fun p => p.2.env) hr
        simpa [isHealthy, request_env] using this.symm
      cases b <;> simpa [hr] using this

theorem envInit_iip_trace (w : World) (s : Sys) (e : Emulator) :
    ∃ l, (EnvInit.instanceIsPresent w s e).2.2.trace = s.trace ++ l ∧
      ∀ ev ∈ l, ∃ u b, ev = Event.request u Method.get b := by
  simp only [EnvInit.instanceIsPresent]
  split
  · exact ⟨[], by simp, by simp⟩
  · split
    · exact ⟨[], by simp, by simp⟩
    · rcases hr : isHealthy w s e with ⟨b, s2⟩
      have htr : ∃ u bb, s2.trace = s.trace ++ [Event.request u Method.get bb] := by
        have := congrArg (fun p => p.2.trace) hr
        simp only [isHealthy, request_trace] at this
        exact ⟨_, _, this.symm⟩
      obtain ⟨u, bb, htr⟩ := htr
      cases b <;>
        exact ⟨[Event.request u Method.get bb], by simpa [hr] using htr, by
          intro ev hev
          rw [List.mem_singleton] at hev
          exact ⟨_, _, hev⟩⟩

theorem fixedHost_iip_env (w : World) (s : Sys) (e : Emulator) :
    (FixedHost.instanceIsPresent w s e).2.2.env = s.env := by
  simp only [FixedHost.instanceIsPresent]
  split
  · rfl
  · split
    · rfl
    · rcases hr : request w s e s.env.DATASTORE_HOST Method.get with ⟨b, s2⟩
      have : s2.env = s.env := by
        have := congrArg (fun p => p.2.env) hr
        simpa [request_env] using this.symm
      cases b <;> simpa [hr] using this

theorem fixedHost_iip_trace (w : World) (s : Sys) (e : Emulator) :
    ∃ l, (FixedHost.instanceIsPresent w s e).2.2.trace = s.trace ++ l ∧
      ∀ ev ∈ l, ∃ u b, ev = Event.request u Method.get b := by
  simp only [FixedHost.instanceIsPresent]
  split
  · exact ⟨[], by simp, by simp⟩
  · split
    · exact ⟨[], by simp, by simp⟩
    · rcases hr : request w s e s.env.DATASTORE_HOST Method.get with ⟨b, s2⟩
      have htr : ∃ u bb, s2.trace = s.trace ++ [Event.request u Method.get bb] := by
        have := congrArg (fun p => p.2.trace) hr
        simp only [request_trace] at this
        exact ⟨_, _, this.symm⟩
      obtain ⟨u, bb, htr⟩ := htr
      cases b <;>
        exact ⟨[Event.request u Method.get bb], by simpa [hr] using htr, by
          intro ev hev
          rw [List.mem_singleton] at hev
          exact ⟨_, _, hev⟩⟩

theorem EnvInit.initEnv_stopOnClose (w : World) (s : Sys) (e : Emulator) :
    (EnvInit.initEnv w s e).2.1.stopOnClose = e.stopOnClose := by
  simp only [EnvInit.initEnv]
  split
  · rfl
  · split <;> rfl

theorem EnvInit.initEnv_env_host (w : World) (s : Sys) (e : Emulator) :
    (EnvInit.initEnv w s e).2.2.env.DATASTORE_HOST = s.env.DATASTORE_HOST := by
  simp only [EnvInit.initEnv]
  split
  · rfl
  · split
    · rfl
    · simp [Sys.setenv, envSet_emulator_host, envSet_project_id]

theorem EnvInit.initEnv_trace (w : World) (s : Sys) (e : Emulator) :
    ∃ l, (EnvInit.initEnv w s e).2.2.trace = s.trace ++ l ∧
      ∀ ev ∈ l, ∃ n v, ev = Event.setenv n v := by
  rcases hrun : w.envInitRun with _ | lines
  · exact ⟨[], by simp [EnvInit.initEnv, hrun], by simp⟩
  · rcases hpl : parseLines lines (fun _ => "") with _ | envMap
    · exact ⟨[], by simp [EnvInit.initEnv, hrun, hpl], by simp⟩
    · refine ⟨[Event.setenv "DATASTORE_EMULATOR_HOST" (envMap "DATASTORE_EMULATOR_HOST"),
        Event.setenv "DATASTORE_PROJECT_ID" (envMap "DATASTORE_PROJECT_ID")], ?_, ?_⟩
      · simp [EnvInit.initEnv, hrun, hpl, Sys.setenv]
      · intro ev hev
        simp at hev
        rcases hev with h | h <;> exact ⟨_, _, h⟩

/-! Timed behaviour of the confirmation loop. -/

theorem confirmLoop_timeout (T Δ : Nat) (w : World) (e : Emulator)
    (hnet : ∀ n, w.net n (e.Host ++ healthcheckEndpoint) Method.get = false)
    (hdur : ∀ n, w.dur n ≤ Δ) :
    ∀ fuel lastTick now s, lastTick ≤ now → now < T + Δ → T ≤ lastTick + fuel * Δ →
      ∃ t s2, confirmLoop T Δ w e fuel lastTick now s = (.timedOut t, s2) ∧
        T ≤ t ∧ t ≤ T + Δ := by
  intro fuel
  induction fuel with
  | zero =>
    intro lastTick now s h1 h2 h3
    simp only [Nat.zero_mul, Nat.add_zero] at h3
    have hTn : T ≤ now := h3.trans h1
    exact ⟨now, s, by simp [confirmLoop, hTn], hTn, by omega⟩
  | succ f ih =>
    intro lastTick now s h1 h2 h3
    by_cases hTn : T ≤ now
    · exact ⟨now, s, by simp [confirmLoop, hTn], hTn, by omega⟩
    · by_cases hTt : T ≤ max now (lastTick + Δ)
      · exact ⟨T, s, by simp [confirmLoop, hTn, hTt], le_refl T, by omega⟩
      · have hreq : (request w s e healthcheckEndpoint Method.get).1 = false :=
          hnet s.reqCount
        rcases hr : request w s e healthcheckEndpoint Method.get with ⟨b, s2⟩
        rw [hr] at hreq
        subst hreq
        have hstep : confirmLoop T Δ w e (f + 1) lastTick now s
            = confirmLoop T Δ w e f (max now (lastTick + Δ))
                (max now (lastTick + Δ) + w.dur s.reqCount) s2 := by
          simp [confirmLoop, hTn, hTt, hr]
        rw [hstep]
        apply ih
        · exact Nat.le_add_right _ _
        · have hd := hdur s.reqCount
          have hM := Nat.lt_of_not_le hTt
          omega
        · rw [Nat.succ_mul] at h3
          have hM := Nat.le_max_right now (lastTick + Δ)
          omega

theorem confirmLoop_success (T Δ : Nat) (w : World) (e : Emulator)
    (hΔ : 0 < Δ) (hdur : ∀ n, w.dur n ≤ Δ) :
    ∀ j fuel lastTick now s,
      now ≤ lastTick + Δ →
      (∀ i, i < j → w.net (s.reqCount + i) (e.Host ++ healthcheckEndpoint) Method.get = false) →
      w.net (s.reqCount + j) (e.Host ++ healthcheckEndpoint) Method.get = true →
      lastTick + (j + 1) * Δ < T →
      T ≤ lastTick + fuel * Δ →
      ∃ s2, confirmLoop T Δ w e fuel lastTick now s
          = (.confirmed (lastTick + (j + 1) * Δ + w.dur (s.reqCount + j)), s2) := by
  intro j
  induction j with
  | zero =>
    intro fuel lastTick now s hnow hfail hsucc hj hfuel
    rw [Nat.one_mul] at hj
    have hnT : ¬ T ≤ now := by omega
    match fuel with
    | 0 =>
      exfalso
      simp only [Nat.zero_mul, Nat.add_zero] at hfuel
      omega
    | f + 1 =>
      have hM : max now (lastTick + Δ) = lastTick + Δ := Nat.max_eq_right hnow
      have hMT : ¬ T ≤ lastTick + Δ := by omega
      have hreq : (request w s e healthcheckEndpoint Method.get).1 = true := by
        simpa using hsucc
      rcases hr : request w s e healthcheckEndpoint Method.get with ⟨b, s2⟩
      rw [hr] at hreq
      subst hreq
      refine ⟨s2, ?_⟩
      simp only [confirmLoop, hM, hr]
      rw [if_neg hnT, if_neg hMT]
      simp [Nat.one_mul]
  | succ j ih =>
    intro fuel lastTick now s hnow hfail hsucc hj hfuel
    rw [Nat.succ_mul] at hj
    have hjΔ : Δ ≤ (j + 1) * Δ := by
      calc Δ = 1 * Δ := (Nat.one_mul Δ).symm
      _ ≤ (j + 1) * Δ := Nat.mul_le_mul_right Δ (by omega)
    have hnT : ¬ T ≤ now := by omega
    match fuel with
    | 0 =>
      exfalso
      simp only [Nat.zero_mul, Nat.add_zero] at hfuel
      omega
    | f + 1 =>
      have hM : max now (lastTick + Δ) = lastTick + Δ := Nat.max_eq_right hnow
      have hMT : ¬ T ≤ lastTick + Δ := by omega
      have hreq : (request w s e healthcheckEndpoint Method.get).1 = false := by
        simpa using hfail 0 (by omega)
      rcases hr : request w s e healthcheckEndpoint Method.get with ⟨b, s2⟩
      rw [hr] at hreq
      subst hreq
      have hs2 : s2.reqCount = s.reqCount + 1 := by
        have := congrArg (fun p => p.2.reqCount) hr
        simpa [request_reqCount] using this.symm
      have hstep : confirmLoop T Δ w e (f + 1) lastTick now s
          = confirmLoop T Δ w e f (lastTick + Δ) (lastTick + Δ + w.dur s.reqCount) s2 := by
        simp only [confirmLoop, hM, hr]
        rw [if_neg hnT, if_neg hMT]
      rw [hstep]
      obtain ⟨s3, hs3⟩ := ih f (lastTick + Δ) (lastTick + Δ + w.dur s.reqCount) s2
        (by have := hdur s.reqCount; omega)
        (by
          intro i hi
          have := hfail (i + 1) (by omega)
          rw [hs2]
          have harith : s.reqCount + (i + 1) = s.reqCount + 1 + i := by omega
          rwa [harith] at this)
        (by
          rw [hs2]
          have harith : s.reqCount + (j + 1) = s.reqCount + 1 + j := by omega
          rwa [harith] at hsucc)
        (by rw [Nat.succ_mul] at hj ⊢; omega)
        (by rw [Nat.succ_mul] at hfuel; omega)
      refine ⟨s3, ?_⟩
      rw [hs3]
      have harith2 : lastTick + Δ + (j + 1) * Δ = lastTick + (j + 1 + 1) * Δ := by
        rw [Nat.succ_mul (j + 1) Δ]; omega
      have harith3 : s2.reqCount + j = s.reqCount + (j + 1) := by omega
      rw [harith2, harith3]

theorem Close_env_host (w : World) (s : Sys) (e : Emulator) :
    (Close w s e).2.2.env.DATASTORE_HOST = s.env.DATASTORE_HOST := by
  cases he : e.stopOnClose
  · rw [Close_not_owned w s e he]
  · rw [Close_owned_env w s e he]

theorem envInit_iip_false_of_no_host (w : World) (s : Sys) (e : Emulator)
    (h : s.env.DATASTORE_HOST = "") :
    (EnvInit.instanceIsPresent w s e).1 = false := by
  simp [EnvInit.instanceIsPresent, h]

theorem fixedHost_iip_false_of_no_host (w : World) (s : Sys) (e : Emulator)
    (h : s.env.DATASTORE_HOST = "") :
    (FixedHost.instanceIsPresent w s e).1 = false := by
  simp [FixedHost.instanceIsPresent, h]

theorem envInit_Start_env_host (w : World) (s : Sys) (e : Emulator) :
    (EnvInit.Start w s e).2.2.env.DATASTORE_HOST = s.env.DATASTORE_HOST := by
  simp only [EnvInit.Start]
  split
  next e2 s2 heq =>
    have h := congrArg (fun p => p.2.2.env) heq
    simp only [envInit_iip_env] at h
    simp [← h]
  next x s0 heq =>
    have hs0 : s0.env = s.env := by
      have h := congrArg (fun p => p.2.2.env) heq
      simpa [envInit_iip_env] using h.symm
    split
    · simp [hs0]
    · split
      next e2 s2 heq2 =>
        have h := congrArg (fun p => p.2.2.env.DATASTORE_HOST) heq2
        simp only [EnvInit.initEnv_env_host] at h
        simp [← h, hs0]
      next er e2 s2 heq2 =>
        have h : s2.env.DATASTORE_HOST = s0.env.DATASTORE_HOST := by
          have h := congrArg (fun p => p.2.2.env.DATASTORE_HOST) heq2
          simpa [EnvInit.initEnv_env_host] using h.symm
        simp [Close_env_host, h, hs0]
      next e2 s2 heq2 =>
        have h : s2.env.DATASTORE_HOST = s0.env.DATASTORE_HOST := by
          have h := congrArg (fun p => p.2.2.env.DATASTORE_HOST) heq2
          simpa [EnvInit.initEnv_env_host] using h.symm
        split
        next t s3 heq3 =>
          have h3 : s3.env = s2.env := by
            have h3 := congrArg (fun p => p.2.env) heq3
            simpa [EnvInit.confirmStartup, confirmLoop_env] using h3.symm
          simp [h3, h, hs0]
        next t s3 heq3 =>
          have h3 : s3.env = s2.env := by
            have h3 := congrArg (fun p => p.2.env) heq3
            simpa [EnvInit.confirmStartup, confirmLoop_env] using h3.symm
          simp [Close_env_host, h3, h, hs0]
        next s3 heq3 =>
          have h3 : s3.env = s2.env := by
            have h3 := congrArg (fun p => p.2.env) heq3
            simpa [EnvInit.confirmStartup, confirmLoop_env] using h3.symm
          simp [h3, h, hs0]

theorem fixedHost_Start_env_host (w : World) (s : Sys) (e : Emulator) :
    (FixedHost.Start w s e).2.2.env.DATASTORE_HOST = s.env.DATASTORE_HOST := by
  simp only [FixedHost.Start]
  split
  next e2 s2 heq =>
    have h := congrArg (fun p => p.2.2.env) heq
    simp only [fixedHost_iip_env] at h
    simp [← h]
  next x s0 heq =>
    have hs0 : s0.env = s.env := by
      have h := congrArg (fun p => p.2.2.env) heq
      simpa [fixedHost_iip_env] using h.symm
    split
    · simp [hs0]
    · split
      next t s2 heq2 =>
        have h2 : s2.env = s0.env := by
          have h2 := congrArg (fun p => p.2.env) heq2
          simpa [FixedHost.confirmStartup, confirmLoop_env] using h2.symm
        simp [Sys.setenv, envSet_emulator_host, envSet_project_id, h2, hs0]
      next t s2 heq2 =>
        have h2 : s2.env = s0.env := by
          have h2 := congrArg (fun p => p.2.env) heq2
          simpa [FixedHost.confirmStartup, confirmLoop_env] using h2.symm
        simp [Close_env_host, h2, hs0]
      next s2 heq2 =>
        have h2 : s2.env = s0.env := by
          have h2 := congrArg (fun p => p.2.env) heq2
          simpa [FixedHost.confirmStartup, confirmLoop_env] using h2.symm
        simp [h2, hs0]

theorem le_confirmFuel_mul (T Δ : Nat) (hΔ : 0 < Δ) : T ≤ confirmFuel T Δ * Δ := by
  have h1 := Nat.div_add_mod T Δ
  rw [Nat.mul_comm Δ (T / Δ)] at h1
  have h2 := Nat.mod_lt T hΔ
  unfold confirmFuel
  rw [Nat.succ_mul]
  omega

theorem envInit_iip_stopOnClose (w : World) (s : Sys) (e : Emulator) :
    (EnvInit.instanceIsPresent w s e).2.1.stopOnClose = e.stopOnClose := by
  simp only [EnvInit.instanceIsPresent]
  split
  · rfl
  · split
    · rfl
    · split <;> rfl

theorem fixedHost_iip_stopOnClose (w : World) (s : Sys) (e : Emulator) :
    (FixedHost.instanceIsPresent w s e).2.1.stopOnClose = e.stopOnClose := by
  simp only [FixedHost.instanceIsPresent]
  split
  · rfl
  · split
    · rfl
    · split <;> rfl

theorem envInit_Start_of_present (w : World) (s : Sys) (e : Emulator)
    (h : (EnvInit.instanceIsPresent w s e).1 = true) :
    EnvInit.Start w s e
      = (.ok, (EnvInit.instanceIsPresent w s e).2.1, (EnvInit.instanceIsPresent w s e).2.2) := by
  simp only [EnvInit.Start]
  rcases hiip : EnvInit.instanceIsPresent w s e with ⟨b, e2, s2⟩
  rw [hiip] at h
  simp only at h
  subst h
  rfl

theorem fixedHost_Start_of_present (w : World) (s : Sys) (e : Emulator)
    (h : (FixedHost.instanceIsPresent w s e).1 = true) :
    FixedHost.Start w s e
      = (.ok, (FixedHost.instanceIsPresent w s e).2.1, (FixedHost.instanceIsPresent w s e).2.2) := by
  simp only [FixedHost.Start]
  rcases hiip : FixedHost.instanceIsPresent w s e with ⟨b, e2, s2⟩
  rw [hiip] at h
  simp only at h
  subst h
  rfl

theorem envInit_Start_of_absent_stopOnClose (w : World) (s : Sys) (e : Emulator)
    (h : (EnvInit.instanceIsPresent w s e).1 = false) :
    (EnvInit.Start w s e).2.1.stopOnClose = true := by
  simp only [EnvInit.Start]
  rcases hiip : EnvInit.instanceIsPresent w s e with ⟨b, e2, s2⟩
  rw [hiip] at h
  simp only at h
  subst h
  dsimp only
  split
  · rfl
  · split
    next e3 s3 heq2 =>
      have h2 := congrArg (fun p => p.2.1.stopOnClose) heq2
      simpa [EnvInit.initEnv_stopOnClose] using h2.symm
    next er e3 s3 heq2 =>
      have h2 := congrArg (fun p => p.2.1.stopOnClose) heq2
      simpa [EnvInit.initEnv_stopOnClose] using h2.symm
    next e3 s3 heq2 =>
      have h2 : e3.stopOnClose = true := by
        have h2 := congrArg (fun p => p.2.1.stopOnClose) heq2
        simpa [EnvInit.initEnv_stopOnClose] using h2.symm
      split <;> simpa using h2

theorem fixedHost_Start_of_absent_stopOnClose (w : World) (s : Sys) (e : Emulator)
    (h : (FixedHost.instanceIsPresent w s e).1 = false) :
    (FixedHost.Start w s e).2.1.stopOnClose = true := by
  simp only [FixedHost.Start]
  rcases hiip : FixedHost.instanceIsPresent w s e with ⟨b, e2, s2⟩
  rw [hiip] at h
  simp only at h
  subst h
  dsimp only
  split
  · rfl
  · split <;> rfl

theorem Reset_emulator (w : World) (s : Sys) (e : Emulator) :
    (Reset w s e).2.1 = e := by
  simp only [Reset]
  split <;> rfl

/-! Claim theorems. -/

/-- C1: for every process environment in which both the discovery host
variable and the discovery project variable are non-empty and the
single-shot health probe of discovery succeeds (the probe as the code
issues it, from a fresh handle), `Start` returns success without
spawning a new process, and the resulting handle has `stopOnClose`
(`Owned`) = false with `Host` and `ProjectID` equal to the discovered
environment values — in both source variants. -/
theorem C1_adoption_no_spawn (w : World) (env : Env)
    (hh : env.DATASTORE_HOST ≠ "") (hp : env.DATASTORE_PROJECT_ID ≠ "")
    (hprobe1 : w.net 0 "" Method.get = true)
    (hprobe2 : w.net 0 env.DATASTORE_HOST Method.get = true) :
    ((EnvInit.Start w (Sys.start env) emptyEmulator).1 = .ok ∧
      (EnvInit.Start w (Sys.start env) emptyEmulator).2.1
        = { Host := env.DATASTORE_HOST, ProjectID := env.DATASTORE_PROJECT_ID,
            stopOnClose := false } ∧
      Event.spawn ∉ (EnvInit.Start w (Sys.start env) emptyEmulator).2.2.trace) ∧
    ((FixedHost.Start w (Sys.start env) emptyEmulator).1 = .ok ∧
      (FixedHost.Start w (Sys.start env) emptyEmulator).2.1
        = { Host := env.DATASTORE_HOST, ProjectID := env.DATASTORE_PROJECT_ID,
            stopOnClose := false } ∧
      Event.spawn ∉ (FixedHost.Start w (Sys.start env) emptyEmulator).2.2.trace) := by
  have hprobe1x : w.net 0 healthcheckEndpoint Method.get = true := by
    simpa [healthcheckEndpoint] using hprobe1
  have hiip1 : EnvInit.instanceIsPresent w (Sys.start env) emptyEmulator
      = (true,
         ({ Host := env.DATASTORE_HOST, ProjectID := env.DATASTORE_PROJECT_ID, stopOnClose := false } : Emulator),
         ({ env := env, reqCount := 1, trace := [Event.request (emptyEmulator.Host ++ healthcheckEndpoint) Method.get (w.net 0 (emptyEmulator.Host ++ healthcheckEndpoint) Method.get)] } : Sys)) := by
    simp [EnvInit.instanceIsPresent, Sys.start, hh, hp, isHealthy, request, hprobe1x,
      emptyEmulator]
  have hiip2 : FixedHost.instanceIsPresent w (Sys.start env) emptyEmulator
      = (true,
         ({ Host := env.DATASTORE_HOST, ProjectID := env.DATASTORE_PROJECT_ID, stopOnClose := false } : Emulator),
         ({ env := env, reqCount := 1, trace := [Event.request (emptyEmulator.Host ++ env.DATASTORE_HOST) Method.get (w.net 0 (emptyEmulator.Host ++ env.DATASTORE_HOST) Method.get)] } : Sys)) := by
    simp [FixedHost.instanceIsPresent, Sys.start, hh, hp, request, hprobe2, emptyEmulator]
  refine ⟨⟨?_, ?_, ?_⟩, ⟨?_, ?_, ?_⟩⟩ <;>
    simp [EnvInit.Start, FixedHost.Start, hiip1, hiip2]

/-- C1 witness: a concrete environment and world satisfying the
hypotheses of the adoption theorem. -/
theorem C1_adoption_no_spawn_witness :
    (EnvInit.Start wTrue (Sys.start envHP) emptyEmulator).1 = .ok ∧
    (FixedHost.Start wTrue (Sys.start envHP) emptyEmulator).2.1
      = { Host := "h", ProjectID := "p", stopOnClose := false } := by
  obtain ⟨⟨h1, _, _⟩, ⟨_, h2, _⟩⟩ :=
    C1_adoption_no_spawn wTrue envHP (by decide) (by decide) rfl rfl
  exact ⟨h1, by simpa [envHP] using h2⟩

/-- C4: for every owned handle, `Close` clears the published
environment variables unconditionally (the two `unsetenv` events come
first in the suffix, before any request) and then issues the shutdown
request exactly when the final health check succeeds; if the instance is
unreachable at that point, `Close` skips shutdown and returns success. -/
theorem C4_owned_Close_clears_then_shutdown (w : World) (s : Sys) (e : Emulator)
    (he : e.stopOnClose = true) :
    (Close w s e).2.2.env.DATASTORE_EMULATOR_HOST = "" ∧
    (Close w s e).2.2.env.DATASTORE_PROJECT_ID = "" ∧
    ∃ l, (Close w s e).2.2.trace
        = s.trace ++ Event.unsetenv "DATASTORE_EMULATOR_HOST"
            :: Event.unsetenv "DATASTORE_PROJECT_ID" :: l ∧
      (w.net s.reqCount (e.Host ++ healthcheckEndpoint) Method.get = false →
        (Close w s e).1 = .ok ∧ ∀ u b, Event.request u Method.post b ∉ l) ∧
      (w.net s.reqCount (e.Host ++ healthcheckEndpoint) Method.get = true →
        ∃ b, Event.request (e.Host ++ shutdownEndpoint) Method.post b ∈ l) := by
  refine ⟨by simp [Close_owned_env w s e he], by simp [Close_owned_env w s e he], ?_⟩
  by_cases hn : w.net s.reqCount (e.Host ++ healthcheckEndpoint) Method.get = true
  · have hcl : Close w s e
        = (match request w ((isHealthy w ((s.unsetenv "DATASTORE_EMULATOR_HOST").unsetenv
              "DATASTORE_PROJECT_ID") e).2) e shutdownEndpoint Method.post with
            | (true, s3) => (GoResult.ok, e, s3)
            | (false, s3) => (GoResult.err Err.statusErr, e, s3)) := by
      simp only [Close, he, Bool.not_true, Bool.false_eq_true, if_false]
      rcases hr : isHealthy w ((s.unsetenv "DATASTORE_EMULATOR_HOST").unsetenv
          "DATASTORE_PROJECT_ID") e with ⟨b, s2⟩
      have hb : b = true := by
        have := congrArg (fun p => p.1) hr
        simp only [isHealthy, request] at this
        rw [← this]
        simpa [Sys.unsetenv] using hn
      subst hb
      rfl
    rcases hq : request w ((isHealthy w ((s.unsetenv "DATASTORE_EMULATOR_HOST").unsetenv
        "DATASTORE_PROJECT_ID") e).2) e shutdownEndpoint Method.post with ⟨b2, s3⟩
    have hb2 : w.net (s.reqCount + 1) (e.Host ++ shutdownEndpoint) Method.post = b2 := by
      have h0 := congrArg (fun p => p.1) hq
      simpa [request, isHealthy, Sys.unsetenv] using h0
    have htr3 : s3.trace = s.trace
        ++ [Event.unsetenv "DATASTORE_EMULATOR_HOST", Event.unsetenv "DATASTORE_PROJECT_ID",
            Event.request (e.Host ++ healthcheckEndpoint) Method.get
              (w.net s.reqCount (e.Host ++ healthcheckEndpoint) Method.get),
            Event.request (e.Host ++ shutdownEndpoint) Method.post b2] := by
      have h1 := congrArg (fun p => p.2.trace) hq
      simp only [request_trace] at h1
      rw [← h1]
      simp [isHealthy, request, Sys.unsetenv, hb2]
    refine ⟨[Event.request (e.Host ++ healthcheckEndpoint) Method.get
        (w.net s.reqCount (e.Host ++ healthcheckEndpoint) Method.get),
        Event.request (e.Host ++ shutdownEndpoint) Method.post b2], ?_, ?_, ?_⟩
    · rw [hcl]
      cases b2 <;> simp [hq, htr3]
    · intro hfalse
      rw [hfalse] at hn
      exact absurd hn Bool.false_ne_true
    · intro _
      exact ⟨b2, by simp⟩
  · have hnf : w.net s.reqCount (e.Host ++ healthcheckEndpoint) Method.get = false := by
      cases hx : w.net s.reqCount (e.Host ++ healthcheckEndpoint) Method.get
      · rfl
      · exact absurd hx hn
    have hcl : Close w s e
        = (GoResult.ok, e,
            (isHealthy w ((s.unsetenv "DATASTORE_EMULATOR_HOST").unsetenv
              "DATASTORE_PROJECT_ID") e).2) := by
      simp only [Close, he, Bool.not_true, Bool.false_eq_true, if_false]
      rcases hr : isHealthy w ((s.unsetenv "DATASTORE_EMULATOR_HOST").unsetenv
          "DATASTORE_PROJECT_ID") e with ⟨b, s2⟩
      have hb : b = false := by
        have := congrArg (fun p => p.1) hr
        simp only [isHealthy, request] at this
        rw [← this]
        simpa [Sys.unsetenv] using hnf
      subst hb
      rfl
    refine ⟨[Event.request (e.Host ++ healthcheckEndpoint) Method.get
        (w.net s.reqCount (e.Host ++ healthcheckEndpoint) Method.get)], ?_, ?_, ?_⟩
    · rw [hcl]
      simp [isHealthy, request, Sys.unsetenv]
    · intro _
      refine ⟨by rw [hcl], ?_⟩
      intro u b hmem
      simp at hmem
    · intro htrue
      rw [htrue] at hnf
      exact absurd hnf.symm Bool.false_ne_true

/-- C4 witness: a concrete owned handle; `Close` on an unreachable
instance returns success and clears the variables. -/
theorem C4_owned_Close_witness :
    (Close wFalse (Sys.start envHP) { Host := "h", ProjectID := "p", stopOnClose := true }).1
      = .ok ∧
    (Close wFalse (Sys.start envHP)
      { Host := "h", ProjectID := "p", stopOnClose := true }).2.2.env.DATASTORE_EMULATOR_HOST
      = "" := by
  obtain ⟨h1, _, l, _, hfalse, _⟩ :=
    C4_owned_Close_clears_then_shutdown wFalse (Sys.start envHP)
      { Host := "h", ProjectID := "p", stopOnClose := true } rfl
  exact ⟨(hfalse rfl).1, h1⟩

/-- C5: for every non-owned handle, `Close` returns success, issues no
request (system state, environment and trace are untouched) and leaves
the handle unchanged. -/
theorem C5_nonowned_Close_inert (w : World) (s : Sys) (e : Emulator)
    (he : e.stopOnClose = false) :
    Close w s e = (.ok, e, s) := by
  simp [Close, he]

/-- C5 witness: a concrete non-owned handle. -/
theorem C5_nonowned_Close_inert_witness :
    Close wTrue (Sys.start envHP) { Host := "h", ProjectID := "p", stopOnClose := false }
      = (.ok, { Host := "h", ProjectID := "p", stopOnClose := false }, Sys.start envHP) :=
  C5_nonowned_Close_inert wTrue (Sys.start envHP)
    { Host := "h", ProjectID := "p", stopOnClose := false } rfl

/-- C10: `Start` publishes `DATASTORE_EMULATOR_HOST`, a different
variable from the `DATASTORE_HOST` read by discovery; consequently from
any starting environment with `DATASTORE_HOST` unset, after `Start`
(either variant) the variable is still unset and a subsequent discovery
check returns false for every world and handle: the publish/discover
pair does not round-trip. -/
theorem C10_publish_discover_no_roundtrip (w : World) (env : Env)
    (hh : env.DATASTORE_HOST = "") :
    (EnvInit.Start w (Sys.start env) emptyEmulator).2.2.env.DATASTORE_HOST = "" ∧
    (∀ w2 e2, (EnvInit.instanceIsPresent w2
      (EnvInit.Start w (Sys.start env) emptyEmulator).2.2 e2).1 = false) ∧
    (FixedHost.Start w (Sys.start env) emptyEmulator).2.2.env.DATASTORE_HOST = "" ∧
    (∀ w2 e2, (FixedHost.instanceIsPresent w2
      (FixedHost.Start w (Sys.start env) emptyEmulator).2.2 e2).1 = false) := by
  have h1 : (EnvInit.Start w (Sys.start env) emptyEmulator).2.2.env.DATASTORE_HOST = "" := by
    rw [envInit_Start_env_host]
    exact hh
  have h2 : (FixedHost.Start w (Sys.start env) emptyEmulator).2.2.env.DATASTORE_HOST = "" := by
    rw [fixedHost_Start_env_host]
    exact hh
  exact ⟨h1, fun w2 e2 => envInit_iip_false_of_no_host w2 _ e2 h1, h2,
    fun w2 e2 => fixedHost_iip_false_of_no_host w2 _ e2 h2⟩

/-- C10 witness: a concrete run from the empty environment. -/
theorem C10_publish_discover_no_roundtrip_witness :
    (EnvInit.Start wTrue (Sys.start envEmpty) emptyEmulator).2.2.env.DATASTORE_HOST = "" ∧
    (FixedHost.instanceIsPresent wTrue
      (FixedHost.Start wTrue (Sys.start envEmpty) emptyEmulator).2.2 emptyEmulator).1
      = false := by
  obtain ⟨h1, _, _, h4⟩ := C10_publish_discover_no_roundtrip wTrue envEmpty rfl
  exact ⟨h1, h4 wTrue emptyEmulator⟩

/-- C2 counterexample: in the `env-init` variant (`src/emulator.go`),
with host `h` and project `p` discovered, adoption succeeds even though
a probe of the discovered host `h` fails, because discovery calls
`e.isHealthy()`, whose single request goes to `e.Host ++
healthcheckEndpoint` — the empty address for a fresh handle — and not
to the discovered host. -/
theorem C2_probe_target_counterexample :
    (EnvInit.instanceIsPresent wEmptyProbe (Sys.start envHP) emptyEmulator).1 = true ∧
    wEmptyProbe.net 0 envHP.DATASTORE_HOST Method.get = false ∧
    (EnvInit.instanceIsPresent wEmptyProbe (Sys.start envHP) emptyEmulator).2.2.trace
      = [Event.request "" Method.get true] := by
  decide

/-- C2 amended: with both variables non-empty and a fresh handle, the
fixed-host variant issues its single probe against the discovered host
and adopts exactly when that probe succeeds; the `env-init` variant
issues its single probe against the handle's health URL (the empty
address), not the discovered host, and adopts exactly when that probe
succeeds. -/
theorem C2_probe_target_amended (w : World) (env : Env)
    (hh : env.DATASTORE_HOST ≠ "") (hp : env.DATASTORE_PROJECT_ID ≠ "") :
    ((FixedHost.instanceIsPresent w (Sys.start env) emptyEmulator).1
        = w.net 0 env.DATASTORE_HOST Method.get ∧
      (FixedHost.instanceIsPresent w (Sys.start env) emptyEmulator).2.2.trace
        = [Event.request env.DATASTORE_HOST Method.get
            (w.net 0 env.DATASTORE_HOST Method.get)]) ∧
    ((EnvInit.instanceIsPresent w (Sys.start env) emptyEmulator).1
        = w.net 0 "" Method.get ∧
      (EnvInit.instanceIsPresent w (Sys.start env) emptyEmulator).2.2.trace
        = [Event.request "" Method.get (w.net 0 "" Method.get)]) := by
  constructor
  · cases hnet : w.net 0 env.DATASTORE_HOST Method.get <;>
      simp [FixedHost.instanceIsPresent, Sys.start, hh, hp, request, emptyEmulator, hnet]
  · have hrw : w.net 0 healthcheckEndpoint Method.get = w.net 0 "" Method.get := rfl
    cases hnet : w.net 0 "" Method.get <;>
      simp [EnvInit.instanceIsPresent, Sys.start, hh, hp, isHealthy, request, emptyEmulator,
        healthcheckEndpoint, hnet]

/-- C2 amended witness: concrete environment and world. -/
theorem C2_probe_target_amended_witness :
    (FixedHost.instanceIsPresent wTrue (Sys.start envHP) emptyEmulator).1
      = wTrue.net 0 "h" Method.get ∧
    (EnvInit.instanceIsPresent wTrue (Sys.start envHP) emptyEmulator).1
      = wTrue.net 0 "" Method.get := by
  obtain ⟨⟨h1, _⟩, ⟨h2, _⟩⟩ := C2_probe_target_amended wTrue envHP (by decide) (by decide)
  exact ⟨by simpa [envHP] using h1, h2⟩

/-- C3 counterexample: when the spawn step fails (`cmd.Start()` returns
an error), the handle is left with `stopOnClose = true` even though no
child process was ever spawned, contradicting the claimed invariant. -/
theorem C3_owned_iff_spawned_counterexample :
    (EnvInit.Start wNoSpawn (Sys.start envEmpty) emptyEmulator).1 = .err .spawnFailed ∧
    (EnvInit.Start wNoSpawn (Sys.start envEmpty) emptyEmulator).2.1.stopOnClose = true ∧
    Event.spawn ∉ (EnvInit.Start wNoSpawn (Sys.start envEmpty) emptyEmulator).2.2.trace := by
  decide

/-- C3 amended: `stopOnClose` (`Owned`) records that `Start` proceeded
past discovery to a launch attempt, not that a process was spawned: in
both variants it equals the negation of the discovery check, it is true
whenever a spawn happened, and a failed spawn also leaves it true;
`Close` and `Reset` never change the handle. -/
theorem C3_owned_iff_launch_attempted (w : World) (env : Env) (s : Sys) (e : Emulator) :
    ((EnvInit.Start w (Sys.start env) emptyEmulator).2.1.stopOnClose
      = !(EnvInit.instanceIsPresent w (Sys.start env) emptyEmulator).1) ∧
    ((FixedHost.Start w (Sys.start env) emptyEmulator).2.1.stopOnClose
      = !(FixedHost.instanceIsPresent w (Sys.start env) emptyEmulator).1) ∧
    (Event.spawn ∈ (EnvInit.Start w (Sys.start env) emptyEmulator).2.2.trace →
      (EnvInit.Start w (Sys.start env) emptyEmulator).2.1.stopOnClose = true) ∧
    (Event.spawn ∈ (FixedHost.Start w (Sys.start env) emptyEmulator).2.2.trace →
      (FixedHost.Start w (Sys.start env) emptyEmulator).2.1.stopOnClose = true) ∧
    (Close w s e).2.1 = e ∧ (Reset w s e).2.1 = e := by
  have h1 : (EnvInit.Start w (Sys.start env) emptyEmulator).2.1.stopOnClose
      = !(EnvInit.instanceIsPresent w (Sys.start env) emptyEmulator).1 := by
    cases hiip : (EnvInit.instanceIsPresent w (Sys.start env) emptyEmulator).1
    · rw [envInit_Start_of_absent_stopOnClose w _ emptyEmulator hiip]
      rfl
    · rw [envInit_Start_of_present w _ emptyEmulator hiip]
      simp [envInit_iip_stopOnClose, emptyEmulator]
  have h2 : (FixedHost.Start w (Sys.start env) emptyEmulator).2.1.stopOnClose
      = !(FixedHost.instanceIsPresent w (Sys.start env) emptyEmulator).1 := by
    cases hiip : (FixedHost.instanceIsPresent w (Sys.start env) emptyEmulator).1
    · rw [fixedHost_Start_of_absent_stopOnClose w _ emptyEmulator hiip]
      rfl
    · rw [fixedHost_Start_of_present w _ emptyEmulator hiip]
      simp [fixedHost_iip_stopOnClose, emptyEmulator]
  refine ⟨h1, h2, ?_, ?_, Close_emulator w s e, Reset_emulator w s e⟩
  · intro hmem
    cases hiip : (EnvInit.instanceIsPresent w (Sys.start env) emptyEmulator).1
    · rw [h1, hiip]
      rfl
    · exfalso
      rw [envInit_Start_of_present w _ emptyEmulator hiip] at hmem
      obtain ⟨l, hl, hall⟩ := envInit_iip_trace w (Sys.start env) emptyEmulator
      rw [hl] at hmem
      simp [Sys.start] at hmem
      obtain ⟨u, b, hub⟩ := hall _ hmem
      cases hub
  · intro hmem
    cases hiip : (FixedHost.instanceIsPresent w (Sys.start env) emptyEmulator).1
    · rw [h2, hiip]
      rfl
    · exfalso
      rw [fixedHost_Start_of_present w _ emptyEmulator hiip] at hmem
      obtain ⟨l, hl, hall⟩ := fixedHost_iip_trace w (Sys.start env) emptyEmulator
      rw [hl] at hmem
      simp [Sys.start] at hmem
      obtain ⟨u, b, hub⟩ := hall _ hmem
      cases hub

/-- C3 amended witness: a concrete world with a failing spawn, and a
concrete run in which a spawn occurred. -/
theorem C3_owned_iff_launch_attempted_witness :
    (EnvInit.Start wNoSpawn (Sys.start envEmpty) emptyEmulator).2.1.stopOnClose
      = !(EnvInit.instanceIsPresent wNoSpawn (Sys.start envEmpty) emptyEmulator).1 ∧
    (EnvInit.Start wFalse (Sys.start envEmpty) emptyEmulator).2.1.stopOnClose = true ∧
    (Close wNoSpawn (Sys.start envEmpty) emptyEmulator).2.1 = emptyEmulator := by
  obtain ⟨h1, _, _, _, h5, _⟩ :=
    C3_owned_iff_launch_attempted wNoSpawn envEmpty (Sys.start envEmpty) emptyEmulator
  obtain ⟨_, _, h3, _⟩ :=
    C3_owned_iff_launch_attempted wFalse envEmpty (Sys.start envEmpty) emptyEmulator
  exact ⟨h1, h3 (by decide), h5⟩

theorem EnvInit.parseLines_isSome (lines : List String)
    (h : ∀ l ∈ lines, EnvInit.parseLine l ≠ none) :
    ∀ m, ∃ m2, EnvInit.parseLines lines m = some m2 := by
  induction lines with
  | nil => exact fun m => ⟨m, rfl⟩
  | cons hd tl ih =>
    intro m
    have hhd := h hd (by simp)
    rcases hp : EnvInit.parseLine hd with _ | kv
    · exact absurd hp hhd
    · simp only [EnvInit.parseLines, hp]
      exact ih (fun l hl => h l (by simp [hl])) _

theorem EnvInit.parseLines_none (lines : List String)
    (h : ∃ l ∈ lines, EnvInit.parseLine l = none) :
    ∀ m, EnvInit.parseLines lines m = none := by
  induction lines with
  | nil => simp at h
  | cons hd tl ih =>
    intro m
    rcases hp : EnvInit.parseLine hd with _ | kv
    · simp [EnvInit.parseLines, hp]
    · simp only [EnvInit.parseLines, hp]
      apply ih
      obtain ⟨l, hl, hnone⟩ := h
      rcases List.mem_cons.mp hl with heq | htl
      · subst heq
        rw [hp] at hnone
        cases hnone
      · exact ⟨l, htl, hnone⟩

/-- C8 counterexample: an `env-init` output line without a space makes
the line parser hit a Go index-out-of-range panic (modelled as `none` /
`panicked`), and `Start` propagates the panic; the claim that the
line-processing is total and that unparseable output yields a
`LaunchError` fails. -/
theorem C8_parse_total_counterexample :
    EnvInit.parseLine "foo" = none ∧
    (EnvInit.initEnv wBadLine (Sys.start envEmpty) emptyEmulator).1 = .panicked ∧
    (EnvInit.Start wBadLine (Sys.start envEmpty) emptyEmulator).1 = .panicked := by
  decide

/-- C8 amended: the line processing takes the token after the first
space-delimited token and splits it on `=`, but it is partial: it
panics (index out of range) exactly when a line has no second
space-delimited token or that token contains no `=`; when every line
parses, `initEnv` returns success even if the expected keys are absent
(no `LaunchError` for missing keys), and one bad line makes `initEnv`
panic rather than return an error. -/
theorem C8_parse_amended :
    (∀ line, EnvInit.parseLine line = none ↔
      ((goSplit ' ' line)[1]? = none ∨
        ∃ second, (goSplit ' ' line)[1]? = some second ∧ (goSplit '=' second)[1]? = none)) ∧
    (∀ line second k v rest, (goSplit ' ' line)[1]? = some second →
      goSplit '=' second = k :: v :: rest → EnvInit.parseLine line = some (k, v)) ∧
    (∀ w s e lines, w.envInitRun = some lines →
      (∀ l ∈ lines, EnvInit.parseLine l ≠ none) → (EnvInit.initEnv w s e).1 = .ok) ∧
    (∀ w s e lines, w.envInitRun = some lines →
      (∃ l ∈ lines, EnvInit.parseLine l = none) → (EnvInit.initEnv w s e).1 = .panicked) := by
  refine ⟨?_, ?_, ?_, ?_⟩
  · intro line
    rcases h1 : (goSplit ' ' line)[1]? with _ | second
    · simp [EnvInit.parseLine, h1]
    · rcases h2 : (goSplit '=' second)[1]? with _ | v
      · constructor
        · intro _
          exact Or.inr ⟨second, rfl, h2⟩
        · intro _
          simp [EnvInit.parseLine, h1, h2]
      · simp only [EnvInit.parseLine, h1, h2]
        constructor
        · intro h
          cases h
        · intro h
          rcases h with h | ⟨sec2, hsec2, hnone⟩
          · cases h
          · have he : second = sec2 := by injection hsec2
            subst he
            rw [h2] at hnone
            cases hnone
  · intro line second k v rest h1 h2
    simp [EnvInit.parseLine, h1, h2]
  · intro w s e lines hrun hall
    obtain ⟨m2, hm2⟩ := EnvInit.parseLines_isSome lines hall (fun _ => "")
    simp [EnvInit.initEnv, hrun, hm2]
  · intro w s e lines hrun hbad
    simp [EnvInit.initEnv, hrun, EnvInit.parseLines_none lines hbad]

/-- C8 amended witness: a well-formed line parses and a spaceless line
panics. -/
theorem C8_parse_amended_witness :
    EnvInit.parseLine "export K=V" = some ("K", "V") ∧
    (EnvInit.initEnv wBadLine (Sys.start envEmpty) emptyEmulator).1 = .panicked := by
  constructor
  · exact C8_parse_amended.2.1 "export K=V" "K=V" "K" "V" [] (by decide) (by decide)
  · exact C8_parse_amended.2.2.2 wBadLine (Sys.start envEmpty) emptyEmulator ["foo"] rfl
      ⟨"foo", by simp, by decide⟩

/-- C7: in both variants, if every health request fails the
confirmation loop returns the timeout error, no earlier than one
polling interval after invocation and no later than the overall timeout
plus one polling interval; and a first successful health response whose
tick falls before the deadline yields the terminal `confirmed` result,
at that tick plus the duration of the succeeding request.  Request
durations are bounded by the per-request timeout (`pollingRate`). -/
theorem C7_confirm_timing (w : World) (e : Emulator) (s : Sys)
    (hdur : ∀ n, w.dur n ≤ pollingRate) :
    ((∀ n, w.net n (e.Host ++ healthcheckEndpoint) Method.get = false) →
      (∃ t s2, EnvInit.confirmStartup w s e = (.timedOut t, s2) ∧
        pollingRate ≤ t ∧ t ≤ EnvInit.timeout + pollingRate) ∧
      (∃ t s2, FixedHost.confirmStartup w s e = (.timedOut t, s2) ∧
        pollingRate ≤ t ∧ t ≤ FixedHost.timeout + pollingRate)) ∧
    (∀ j, (∀ i, i < j → w.net (s.reqCount + i) (e.Host ++ healthcheckEndpoint) Method.get = false) →
      w.net (s.reqCount + j) (e.Host ++ healthcheckEndpoint) Method.get = true →
      ((j + 1) * pollingRate < EnvInit.timeout →
        ∃ s2, EnvInit.confirmStartup w s e
          = (.confirmed ((j + 1) * pollingRate + w.dur (s.reqCount + j)), s2)) ∧
      ((j + 1) * pollingRate < FixedHost.timeout →
        ∃ s2, FixedHost.confirmStartup w s e
          = (.confirmed ((j + 1) * pollingRate + w.dur (s.reqCount + j)), s2))) := by
  constructor
  · intro hnet
    constructor
    · obtain ⟨t, s2, heq, hl, hr⟩ := confirmLoop_timeout EnvInit.timeout pollingRate w e hnet hdur
        (confirmFuel EnvInit.timeout pollingRate) 0 0 s (le_refl 0) (by decide)
        (by simpa using le_confirmFuel_mul EnvInit.timeout pollingRate (by decide))
      have hTp : pollingRate ≤ EnvInit.timeout := by decide
      exact ⟨t, s2, by simpa [EnvInit.confirmStartup] using heq, by omega, hr⟩
    · obtain ⟨t, s2, heq, hl, hr⟩ := confirmLoop_timeout FixedHost.timeout pollingRate w e hnet hdur
        (confirmFuel FixedHost.timeout pollingRate) 0 0 s (le_refl 0) (by decide)
        (by simpa using le_confirmFuel_mul FixedHost.timeout pollingRate (by decide))
      have hTp : pollingRate ≤ FixedHost.timeout := by decide
      exact ⟨t, s2, by simpa [FixedHost.confirmStartup] using heq, by omega, hr⟩
  · intro j hfail hsucc
    constructor
    · intro hbound
      obtain ⟨s2, heq⟩ := confirmLoop_success EnvInit.timeout pollingRate w e (by decide) hdur j
        (confirmFuel EnvInit.timeout pollingRate) 0 0 s (Nat.le_add_left 0 pollingRate)
        hfail hsucc (by simpa using hbound)
        (by simpa using le_confirmFuel_mul EnvInit.timeout pollingRate (by decide))
      exact ⟨s2, by simpa [EnvInit.confirmStartup] using heq⟩
    · intro hbound
      obtain ⟨s2, heq⟩ := confirmLoop_success FixedHost.timeout pollingRate w e (by decide) hdur j
        (confirmFuel FixedHost.timeout pollingRate) 0 0 s (Nat.le_add_left 0 pollingRate)
        hfail hsucc (by simpa using hbound)
        (by simpa using le_confirmFuel_mul FixedHost.timeout pollingRate (by decide))
      exact ⟨s2, by simpa [FixedHost.confirmStartup] using heq⟩

/-- C7 witness: a world in which every request fails times out within
the stated window; a world in which the first request succeeds confirms
at the first tick. -/
theorem C7_confirm_timing_witness :
    (∃ t s2, EnvInit.confirmStartup wFalse (Sys.start envEmpty) emptyEmulator
      = (.timedOut t, s2) ∧ pollingRate ≤ t ∧ t ≤ EnvInit.timeout + pollingRate) ∧
    (∃ s2, EnvInit.confirmStartup wTrue (Sys.start envEmpty) emptyEmulator
      = (.confirmed ((0 + 1) * pollingRate + wTrue.dur ((Sys.start envEmpty).reqCount + 0)), s2)) := by
  obtain ⟨hfail, _⟩ :=
    C7_confirm_timing wFalse emptyEmulator (Sys.start envEmpty) (fun _ => Nat.zero_le _)
  obtain ⟨_, hsucc⟩ :=
    C7_confirm_timing wTrue emptyEmulator (Sys.start envEmpty) (fun _ => Nat.zero_le _)
  refine ⟨(hfail (fun n => rfl)).1, ?_⟩
  exact (hsucc 0 (fun i hi => absurd hi (Nat.not_lt_zero i)) rfl).1 (by decide)

theorem EnvInit.initEnv_err_eq (w : World) (s : Sys) (e : Emulator) (er : Err)
    (h : (EnvInit.initEnv w s e).1 = .err er) : er = .runFailed := by
  rcases hrun : w.envInitRun with _ | lines
  · simp [EnvInit.initEnv, hrun] at h
    exact h.symm
  · rcases hpl : EnvInit.parseLines lines (fun _ => "") with _ | m
    · simp [EnvInit.initEnv, hrun, hpl] at h
    · simp [EnvInit.initEnv, hrun, hpl] at h

/-- C9 counterexample: in the `env-init` variant the publication events
occur during `initEnv`, before startup confirmation: in a run in which
no request ever succeeds (so the instance is never confirmed healthy)
and `Start` returns the timeout error, the trace nevertheless contains
the publication of `DATASTORE_EMULATOR_HOST`. -/
theorem C9_publish_before_confirm_counterexample :
    Event.setenv "DATASTORE_EMULATOR_HOST" "eh"
      ∈ (EnvInit.Start wFalse (Sys.start envEmpty) emptyEmulator).2.2.trace ∧
    (EnvInit.Start wFalse (Sys.start envEmpty) emptyEmulator).1 = .err .deadlineExceeded ∧
    ((EnvInit.Start wFalse (Sys.start envEmpty) emptyEmulator).2.2.trace.filter
      (fun ev => match ev with | Event.request _ _ true => true | _ => false)) = [] := by
  decide

/-- C9 amended: only the fixed-host variant publishes strictly after
confirmation (a publication event in its trace implies `Start` returned
success); the `env-init` variant publishes during `initEnv` before
confirmation, but whenever its `Start` returns the timeout error the
cleanup has already cleared both published variables. -/
theorem C9_publish_after_confirm_amended (w : World) (env : Env) :
    ((∃ n v, Event.setenv n v
        ∈ (FixedHost.Start w (Sys.start env) emptyEmulator).2.2.trace) →
      (FixedHost.Start w (Sys.start env) emptyEmulator).1 = .ok) ∧
    ((EnvInit.Start w (Sys.start env) emptyEmulator).1 = .err .deadlineExceeded →
      (EnvInit.Start w (Sys.start env) emptyEmulator).2.2.env.DATASTORE_EMULATOR_HOST = "" ∧
      (EnvInit.Start w (Sys.start env) emptyEmulator).2.2.env.DATASTORE_PROJECT_ID = "") := by
  constructor
  · by_cases hiip : (FixedHost.instanceIsPresent w (Sys.start env) emptyEmulator).1 = true
    · rw [fixedHost_Start_of_present w _ emptyEmulator hiip]
      intro _
      rfl
    · have hb : (FixedHost.instanceIsPresent w (Sys.start env) emptyEmulator).1 = false := by
        cases hx : (FixedHost.instanceIsPresent w (Sys.start env) emptyEmulator).1
        · rfl
        · exact absurd hx hiip
      obtain ⟨l0, hl0, hall0⟩ := fixedHost_iip_trace w (Sys.start env) emptyEmulator
      simp only [FixedHost.Start]
      rcases hiip2 : FixedHost.instanceIsPresent w (Sys.start env) emptyEmulator with ⟨b, e0, s0⟩
      rw [hiip2] at hb
      simp only at hb
      subst hb
      rw [hiip2] at hl0
      simp only [Sys.start] at hl0
      dsimp only
      have hnos0 : ∀ n v, Event.setenv n v ∉ s0.trace := by
        intro n v hmem
        rw [hl0] at hmem
        simp at hmem
        obtain ⟨u, b2, hub⟩ := hall0 _ hmem
        cases hub
      split
      · intro ⟨n, v, hmem⟩
        exact absurd hmem (hnos0 n v)
      · split
        next t s2 heq2 =>
          intro _
          rfl
        next t s2 heq2 =>
          intro ⟨n, v, hmem⟩
          exfalso
          obtain ⟨l2, hl2, hall2⟩ := confirmLoop_trace FixedHost.timeout pollingRate w
            { Host := "http://" ++ FixedHost.defaultHost, ProjectID := FixedHost.defaultProject,
              stopOnClose := true }
            (confirmFuel FixedHost.timeout pollingRate) 0 0
            { env := s0.env, reqCount := s0.reqCount, trace := s0.trace ++ [Event.spawn] }
          have hs2tr : s2.trace = (s0.trace ++ [Event.spawn]) ++ l2 := by
            have hx := congrArg (fun p => p.2.trace) heq2
            simp only [FixedHost.confirmStartup] at hx
            rw [hl2] at hx
            exact hx.symm
          obtain ⟨l3, hl3, hall3⟩ := Close_owned_trace w s2
            { Host := "http://" ++ FixedHost.defaultHost, ProjectID := FixedHost.defaultProject,
              stopOnClose := true } rfl
          rw [hl3, hs2tr] at hmem
          rcases List.mem_append.mp hmem with hmem | hmem
          · rcases List.mem_append.mp hmem with hmem | hmem
            · rcases List.mem_append.mp hmem with hmem | hmem
              · exact hnos0 n v hmem
              · rw [List.mem_singleton] at hmem
                cases hmem
            · obtain ⟨u, b2, hub⟩ := hall2 _ hmem
              cases hub
          · rcases List.mem_cons.mp hmem with hmem | hmem
            · cases hmem
            · rcases List.mem_cons.mp hmem with hmem | hmem
              · cases hmem
              · obtain ⟨u, m2, b2, hub⟩ := hall3 _ hmem
                cases hub
        next s2 heq2 =>
          intro ⟨n, v, hmem⟩
          exfalso
          obtain ⟨l2, hl2, hall2⟩ := confirmLoop_trace FixedHost.timeout pollingRate w
            { Host := "http://" ++ FixedHost.defaultHost, ProjectID := FixedHost.defaultProject,
              stopOnClose := true }
            (confirmFuel FixedHost.timeout pollingRate) 0 0
            { env := s0.env, reqCount := s0.reqCount, trace := s0.trace ++ [Event.spawn] }
          have hs2tr : s2.trace = (s0.trace ++ [Event.spawn]) ++ l2 := by
            have hx := congrArg (fun p => p.2.trace) heq2
            simp only [FixedHost.confirmStartup] at hx
            rw [hl2] at hx
            exact hx.symm
          rw [hs2tr] at hmem
          rcases List.mem_append.mp hmem with hmem | hmem
          · rcases List.mem_append.mp hmem with hmem | hmem
            · exact hnos0 n v hmem
            · rw [List.mem_singleton] at hmem
              cases hmem
          · obtain ⟨u, b2, hub⟩ := hall2 _ hmem
            cases hub
  · simp only [EnvInit.Start]
    rcases hiip : EnvInit.instanceIsPresent w (Sys.start env) emptyEmulator with ⟨b, e0, s0⟩
    cases b
    · dsimp only
      split
      · intro h
        simp at h
      · split
        next e2 s2 heq2 =>
          intro h
          simp at h
        next er e2 s2 heq2 =>
          intro h
          simp only [GoResult.err.injEq] at h
          have := EnvInit.initEnv_err_eq w _ _ er (by rw [heq2])
          rw [h] at this
          cases this
        next e2 s2 heq2 =>
          have he2 : e2.stopOnClose = true := by
            have hx := congrArg (fun p => p.2.1.stopOnClose) heq2
            simpa [EnvInit.initEnv_stopOnClose] using hx.symm
          split
          next t s3 heq3 =>
            intro h
            simp at h
          next t s3 heq3 =>
            intro _
            rw [Close_owned_env w s3 e2 he2]
            exact ⟨rfl, rfl⟩
          next s3 heq3 =>
            intro h
            simp at h
    · dsimp only
      intro h
      simp at h

/-- C9 amended witness: the fixed-host variant publishes in a
successful run; the env-init variant's timeout run ends with the
published variables cleared. -/
theorem C9_publish_after_confirm_amended_witness :
    (FixedHost.Start wTrue (Sys.start envEmpty) emptyEmulator).1 = .ok ∧
    (EnvInit.Start wFalse (Sys.start envEmpty) emptyEmulator).2.2.env.DATASTORE_EMULATOR_HOST
      = "" := by
  obtain ⟨ha, _⟩ := C9_publish_after_confirm_amended wTrue envEmpty
  obtain ⟨_, hb⟩ := C9_publish_after_confirm_amended wFalse envEmpty
  exact ⟨ha ⟨"DATASTORE_EMULATOR_HOST", "localhost:8088", by decide⟩, (hb (by decide)).1⟩

theorem Close_owned_health_false (w : World) (s : Sys) (e : Emulator)
    (he : e.stopOnClose = true)
    (hn : w.net s.reqCount (e.Host ++ healthcheckEndpoint) Method.get = false) :
    Close w s e = (.ok, e,
      { env := { s.env with DATASTORE_EMULATOR_HOST := "", DATASTORE_PROJECT_ID := "" },
        reqCount := s.reqCount + 1,
        trace := s.trace ++ [Event.unsetenv "DATASTORE_EMULATOR_HOST",
          Event.unsetenv "DATASTORE_PROJECT_ID",
          Event.request (e.Host ++ healthcheckEndpoint) Method.get false] }) := by
  simp only [Close, he, Bool.not_true, Bool.false_eq_true, if_false]
  rcases hr : isHealthy w ((s.unsetenv "DATASTORE_EMULATOR_HOST").unsetenv
      "DATASTORE_PROJECT_ID") e with ⟨b, s2⟩
  have hb : b = false := by
    have hx := congrArg (fun p => p.1) hr
    simp only [isHealthy, request] at hx
    rw [← hx]
    simpa [Sys.unsetenv] using hn
  subst hb
  dsimp only
  have hs2 : s2
      = { env := { s.env with DATASTORE_EMULATOR_HOST := "", DATASTORE_PROJECT_ID := "" },
          reqCount := s.reqCount + 1,
          trace := s.trace ++ [Event.unsetenv "DATASTORE_EMULATOR_HOST",
            Event.unsetenv "DATASTORE_PROJECT_ID",
            Event.request (e.Host ++ healthcheckEndpoint) Method.get false] } := by
    have hx := congrArg (fun p => p.2) hr
    dsimp only at hx
    rw [← hx]
    simp [isHealthy, request, Sys.unsetenv, envSet_emulator_host, envSet_project_id, hn]
  rw [hs2]

theorem envInit_Start_allGetFail (w : World) (env : Env)
    (hh : env.DATASTORE_HOST = "") (hspawn : w.spawnOK = true)
    (hget : ∀ n u, w.net n u Method.get = false)
    (hdur : ∀ n, w.dur n ≤ pollingRate)
    (lines : List String) (envMap : String → String)
    (hrun : w.envInitRun = some lines)
    (hpl : EnvInit.parseLines lines (fun _ => "") = some envMap) :
    (EnvInit.Start w (Sys.start env) emptyEmulator).1 = .err .deadlineExceeded ∧
    Event.spawn ∈ (EnvInit.Start w (Sys.start env) emptyEmulator).2.2.trace ∧
    (∀ u b, Event.request u Method.post b
      ∉ (EnvInit.Start w (Sys.start env) emptyEmulator).2.2.trace) ∧
    (EnvInit.Start w (Sys.start env) emptyEmulator).2.2.env.DATASTORE_EMULATOR_HOST = "" ∧
    (EnvInit.Start w (Sys.start env) emptyEmulator).2.2.env.DATASTORE_PROJECT_ID = "" := by
  have hiip : EnvInit.instanceIsPresent w (Sys.start env) emptyEmulator
      = (false, emptyEmulator, { env := env, reqCount := 0, trace := [] }) := by
    simp [EnvInit.instanceIsPresent, Sys.start, hh]
  have hie : EnvInit.initEnv w { env := env, reqCount := 0, trace := [Event.spawn] }
        { Host := "", ProjectID := "", stopOnClose := true }
      = (.ok,
          ({ Host := envMap "DATASTORE_HOST", ProjectID := envMap "DATASTORE_PROJECT_ID", stopOnClose := true } : Emulator),
          (⟨⟨env.DATASTORE_HOST, envMap "DATASTORE_PROJECT_ID", envMap "DATASTORE_EMULATOR_HOST"⟩, 0, [Event.spawn, Event.setenv "DATASTORE_EMULATOR_HOST" (envMap "DATASTORE_EMULATOR_HOST"), Event.setenv "DATASTORE_PROJECT_ID" (envMap "DATASTORE_PROJECT_ID")]⟩ : Sys)) := by
    simp [EnvInit.initEnv, hrun, hpl, Sys.setenv, envSet_emulator_host, envSet_project_id]
  obtain ⟨t, s3, hcs, _, _⟩ := confirmLoop_timeout EnvInit.timeout pollingRate w
      ({ Host := envMap "DATASTORE_HOST", ProjectID := envMap "DATASTORE_PROJECT_ID", stopOnClose := true } : Emulator)
      (fun n => hget n _) hdur (confirmFuel EnvInit.timeout pollingRate) 0 0
      (⟨⟨env.DATASTORE_HOST, envMap "DATASTORE_PROJECT_ID", envMap "DATASTORE_EMULATOR_HOST"⟩, 0, [Event.spawn, Event.setenv "DATASTORE_EMULATOR_HOST" (envMap "DATASTORE_EMULATOR_HOST"), Event.setenv "DATASTORE_PROJECT_ID" (envMap "DATASTORE_PROJECT_ID")]⟩ : Sys)
      (le_refl 0) (by decide)
      (by simpa using le_confirmFuel_mul EnvInit.timeout pollingRate (by decide))
  obtain ⟨l2, hl2, hall2⟩ := confirmLoop_trace EnvInit.timeout pollingRate w
      ({ Host := envMap "DATASTORE_HOST", ProjectID := envMap "DATASTORE_PROJECT_ID", stopOnClose := true } : Emulator)
      (confirmFuel EnvInit.timeout pollingRate) 0 0
      (⟨⟨env.DATASTORE_HOST, envMap "DATASTORE_PROJECT_ID", envMap "DATASTORE_EMULATOR_HOST"⟩, 0, [Event.spawn, Event.setenv "DATASTORE_EMULATOR_HOST" (envMap "DATASTORE_EMULATOR_HOST"), Event.setenv "DATASTORE_PROJECT_ID" (envMap "DATASTORE_PROJECT_ID")]⟩ : Sys)
  rw [hcs] at hl2
  have hclose := Close_owned_health_false w s3
      ({ Host := envMap "DATASTORE_HOST", ProjectID := envMap "DATASTORE_PROJECT_ID", stopOnClose := true } : Emulator) rfl (hget s3.reqCount _)
  have hstart : EnvInit.Start w (Sys.start env) emptyEmulator
      = (.err .deadlineExceeded,
         ({ Host := envMap "DATASTORE_HOST", ProjectID := envMap "DATASTORE_PROJECT_ID", stopOnClose := true } : Emulator),
         (⟨{ s3.env with DATASTORE_EMULATOR_HOST := "", DATASTORE_PROJECT_ID := "" }, s3.reqCount + 1, s3.trace ++ [Event.unsetenv "DATASTORE_EMULATOR_HOST", Event.unsetenv "DATASTORE_PROJECT_ID", Event.request ((envMap "DATASTORE_HOST") ++ healthcheckEndpoint) Method.get false]⟩ : Sys)) := by
    simp only [EnvInit.Start, hiip]
    rw [if_neg (by simp [hspawn])]
    simp only [emptyEmulator, List.nil_append]
    rw [hie]
    dsimp only
    simp only [EnvInit.confirmStartup]
    rw [hcs]
    dsimp only
    rw [hclose]
  refine ⟨by rw [hstart], ?_, ?_, by rw [hstart], by rw [hstart]⟩
  · rw [hstart]
    dsimp only
    rw [hl2]
    simp
  · intro u b hmem
    rw [hstart] at hmem
    dsimp only at hmem
    rw [hl2] at hmem
    rcases List.mem_append.mp hmem with h | h
    · rcases List.mem_append.mp h with h | h
      · simp at h
      · obtain ⟨u2, b2, hub⟩ := hall2 _ h
        cases hub
    · simp at h

theorem fixedHost_Start_allGetFail (w : World) (env : Env)
    (hh : env.DATASTORE_HOST = "") (hspawn : w.spawnOK = true)
    (hget : ∀ n u, w.net n u Method.get = false)
    (hdur : ∀ n, w.dur n ≤ pollingRate) :
    (FixedHost.Start w (Sys.start env) emptyEmulator).1 = .err .deadlineExceeded ∧
    Event.spawn ∈ (FixedHost.Start w (Sys.start env) emptyEmulator).2.2.trace ∧
    (∀ u b, Event.request u Method.post b
      ∉ (FixedHost.Start w (Sys.start env) emptyEmulator).2.2.trace) := by
  have hiip : FixedHost.instanceIsPresent w (Sys.start env) emptyEmulator
      = (false, emptyEmulator, { env := env, reqCount := 0, trace := [] }) := by
    simp [FixedHost.instanceIsPresent, Sys.start, hh]
  obtain ⟨t, s3, hcs, _, _⟩ := confirmLoop_timeout FixedHost.timeout pollingRate w
      ({ Host := "http://" ++ FixedHost.defaultHost, ProjectID := FixedHost.defaultProject, stopOnClose := true } : Emulator)
      (fun n => hget n _) hdur (confirmFuel FixedHost.timeout pollingRate) 0 0
      ({ env := env, reqCount := 0, trace := [Event.spawn] } : Sys)
      (le_refl 0) (by decide)
      (by simpa using le_confirmFuel_mul FixedHost.timeout pollingRate (by decide))
  obtain ⟨l2, hl2, hall2⟩ := confirmLoop_trace FixedHost.timeout pollingRate w
      ({ Host := "http://" ++ FixedHost.defaultHost, ProjectID := FixedHost.defaultProject, stopOnClose := true } : Emulator)
      (confirmFuel FixedHost.timeout pollingRate) 0 0
      ({ env := env, reqCount := 0, trace := [Event.spawn] } : Sys)
  rw [hcs] at hl2
  have hclose := Close_owned_health_false w s3
      ({ Host := "http://" ++ FixedHost.defaultHost, ProjectID := FixedHost.defaultProject, stopOnClose := true } : Emulator) rfl (hget s3.reqCount _)
  have hstart : FixedHost.Start w (Sys.start env) emptyEmulator
      = (.err .deadlineExceeded,
         ({ Host := "http://" ++ FixedHost.defaultHost, ProjectID := FixedHost.defaultProject, stopOnClose := true } : Emulator),
         (⟨{ s3.env with DATASTORE_EMULATOR_HOST := "", DATASTORE_PROJECT_ID := "" }, s3.reqCount + 1, s3.trace ++ [Event.unsetenv "DATASTORE_EMULATOR_HOST", Event.unsetenv "DATASTORE_PROJECT_ID", Event.request (("http://" ++ FixedHost.defaultHost) ++ healthcheckEndpoint) Method.get false]⟩ : Sys)) := by
    simp only [FixedHost.Start, hiip]
    rw [if_neg (by simp [hspawn])]
    simp only [emptyEmulator, List.nil_append]
    simp only [FixedHost.confirmStartup]
    rw [hcs]
    dsimp only
    rw [hclose]
  refine ⟨by rw [hstart], ?_, ?_⟩
  · rw [hstart]
    dsimp only
    rw [hl2]
    simp
  · intro u b hmem
    rw [hstart] at hmem
    dsimp only at hmem
    rw [hl2] at hmem
    rcases List.mem_append.mp hmem with h | h
    · rcases List.mem_append.mp h with h | h
      · simp at h
      · obtain ⟨u2, b2, hub⟩ := hall2 _ h
        cases hub
    · simp at h

/-- C6 counterexample: in a run in which the emulator is spawned and
every request fails, `Start` returns the timeout error but the
best-effort cleanup issues no shutdown request at all (the cleanup
`Close` first re-checks health, which fails again), so the spawned
process is not terminated. -/
theorem C6_teardown_counterexample :
    (EnvInit.Start wFalse (Sys.start envEmpty) emptyEmulator).1 = .err .deadlineExceeded ∧
    Event.spawn ∈ (EnvInit.Start wFalse (Sys.start envEmpty) emptyEmulator).2.2.trace ∧
    ((EnvInit.Start wFalse (Sys.start envEmpty) emptyEmulator).2.2.trace.filter
      (fun ev => match ev with | Event.request _ Method.post _ => true | _ => false)) = [] := by
  decide

/-- C6 amended: on startup-confirmation timeout `Start` invokes `Close`
for best-effort cleanup and returns the timeout error (any cleanup
error is discarded); the cleanup clears the published variables but
issues the shutdown request only if a final health check succeeds —
when the instance remains unreachable no shutdown request is issued in
the whole run and the spawned process is not terminated.  When the
final health check does succeed and the shutdown request itself fails,
the timeout error is still the one returned (cleanup error
suppressed), as the concrete `wLateHealth` run shows. -/
theorem C6_timeout_cleanup_amended (w : World) (env : Env)
    (hh : env.DATASTORE_HOST = "") (hspawn : w.spawnOK = true)
    (hget : ∀ n u, w.net n u Method.get = false)
    (hdur : ∀ n, w.dur n ≤ pollingRate)
    (lines : List String) (envMap : String → String)
    (hrun : w.envInitRun = some lines)
    (hpl : EnvInit.parseLines lines (fun _ => "") = some envMap) :
    ((EnvInit.Start w (Sys.start env) emptyEmulator).1 = .err .deadlineExceeded ∧
      Event.spawn ∈ (EnvInit.Start w (Sys.start env) emptyEmulator).2.2.trace ∧
      (∀ u b, Event.request u Method.post b
        ∉ (EnvInit.Start w (Sys.start env) emptyEmulator).2.2.trace) ∧
      (EnvInit.Start w (Sys.start env) emptyEmulator).2.2.env.DATASTORE_EMULATOR_HOST = "" ∧
      (EnvInit.Start w (Sys.start env) emptyEmulator).2.2.env.DATASTORE_PROJECT_ID = "") ∧
    ((FixedHost.Start w (Sys.start env) emptyEmulator).1 = .err .deadlineExceeded ∧
      Event.spawn ∈ (FixedHost.Start w (Sys.start env) emptyEmulator).2.2.trace ∧
      (∀ u b, Event.request u Method.post b
        ∉ (FixedHost.Start w (Sys.start env) emptyEmulator).2.2.trace)) ∧
    ((EnvInit.Start wLateHealth (Sys.start envEmpty) emptyEmulator).1
        = .err .deadlineExceeded ∧
      Event.request ("h" ++ shutdownEndpoint) Method.post false
        ∈ (EnvInit.Start wLateHealth (Sys.start envEmpty) emptyEmulator).2.2.trace) := by
  exact ⟨envInit_Start_allGetFail w env hh hspawn hget hdur lines envMap hrun hpl,
    fixedHost_Start_allGetFail w env hh hspawn hget hdur,
    by decide, by decide⟩

/-- C6 amended witness: the all-fail world. -/
theorem C6_timeout_cleanup_amended_witness :
    (EnvInit.Start wFalse (Sys.start envEmpty) emptyEmulator).1 = .err .deadlineExceeded ∧
    (FixedHost.Start wFalse (Sys.start envEmpty) emptyEmulator).1 = .err .deadlineExceeded := by
  obtain ⟨m2, hm2⟩ := EnvInit.parseLines_isSome goodLines (by decide) (fun _ => "")
  obtain ⟨⟨h1, _⟩, ⟨h5, _⟩, _⟩ := C6_timeout_cleanup_amended wFalse envEmpty rfl rfl
    (fun n u => rfl) (fun _ => Nat.zero_le _) goodLines m2 rfl hm2
  exact ⟨h1, h5⟩

end DatastoreEmulatorGo
